import Mathlib

/-!
Shallow embedding of the Extraction-Normalization-Load engine of
`src/api_medium/pipelines/data_processing/nodes.py`, together with theorems
settling the specification claims about it.

Conventions of the embedding:
* Python lists become `List`; a dict value that `dict.pop(key, None)` may miss
  becomes `Option`; an attribute access on an API object that may raise a
  network error becomes `Except Unit`.
* `pandas.DataFrame([{pid, vals}]).explode(col)` is modelled by `explodeRows`:
  a non-empty list yields one row per element (in order), an empty list yields
  a single row whose child value is `none` (pandas emits `NaN` there).
* An uncaught Python exception is modelled by `Except.error ()` propagating out
  of the embedded function; a `try/except ... logger.error(...)` block is
  modelled by catching locally and appending a structured log entry.
-/

deriving instance DecidableEq for Except

/-- One relation-table row `(parent_id, child_value)`; the child is `none` when
pandas `explode` turned an empty list into a `NaN` row. -/
abbrev RelRow := String × Option String

/-- Model of `DataFrame([{pid, vals}]).explode(col)`: pandas keeps one `NaN`
row when the exploded list is empty, otherwise one row per element in order. -/
def explodeRows (pid : String) : List String → List RelRow
  | [] => [(pid, none)]
  | v :: vs => (v :: vs).map (fun x => (pid, some x))

/-- Rows produced under a Python truthiness guard `if popped_value:` where the
popped value is an `Option` (absent key ⇒ `None`): only a present, non-empty
list produces rows. -/
def optTruthyRows (pid : String) : Option (List String) → List RelRow
  | some (v :: vs) => explodeRows pid (v :: vs)
  | _ => []

/-- Rows produced under a truthiness guard `if value:` for a plain list value:
an empty list is falsy and produces no rows. -/
def listTruthyRows (pid : String) : List String → List RelRow
  | [] => []
  | v :: vs => explodeRows pid (v :: vs)

/-! ## RelevanceScorer (inline in `fetch_publications_info`, lines 421-426) -/

/-- ASCII model of Python `str.lower()` applied characterwise. -/
def lowerStr (s : String) : String := String.mk (s.data.map Char.toLower)

/-- A regex `\w` character: alphanumeric or underscore. -/
def isWordChar (c : Char) : Bool := c.isAlphanum || c == '_'

/-- Maximal runs of `\w` characters, accumulator-style. -/
def tokenizeAux : List Char → List Char → List (List Char)
  | [], acc => if acc.isEmpty then [] else [acc.reverse]
  | c :: cs, acc =>
    if isWordChar c then tokenizeAux cs (c :: acc)
    else if acc.isEmpty then tokenizeAux cs []
    else acc.reverse :: tokenizeAux cs []

/-- Model of `re.findall(r'\b\w+\b', description.lower())`: the lower-cased
maximal word-character runs of the description, in order. -/
def tokenize (s : String) : List String :=
  (tokenizeAux (lowerStr s).data []).map (fun l => String.mk l)

/-- `chunkAt sub hay`: `hay` starts with `sub`. -/
def chunkAt : List Char → List Char → Bool
  | [], _ => true
  | _ :: _, [] => false
  | a :: as, b :: bs => a == b && chunkAt as bs

/-- `hasChunk sub hay`: `sub` occurs contiguously inside `hay`. -/
def hasChunk (sub : List Char) : List Char → Bool
  | [] => sub.isEmpty
  | c :: cs => chunkAt sub (c :: cs) || hasChunk sub cs

/-- Model of Python `sub in hay` on strings: substring containment. -/
def substrOf (sub hay : String) : Bool := hasChunk sub.data hay.data

/-- Score the source computes for one tag (line 425):
`sum(1 for word in words if word.lower() in tag.lower())` — the number of
description tokens that occur as substrings **of** the lower-cased tag.
(The tokens already come from `description.lower()`, so the source's inner
`word.lower()` is the identity and is omitted here.) -/
def tagScore (words : List String) (tag : String) : Nat :=
  (words.filter (fun w => substrOf w (lowerStr tag))).length

/-- Score the claim describes: the number of description tokens that contain
the lower-cased tag as a substring (the reverse containment direction). -/
def spec_score (words : List String) (tag : String) : Nat :=
  (words.filter (fun w => substrOf (lowerStr tag) w)).length

/-- One assignment `counter[k] = v` on an insertion-ordered Python dict:
overwrite in place if the key exists, otherwise append at the end. -/
def counterSet : List (String × Nat) → String → Nat → List (String × Nat)
  | [], k, v => [(k, v)]
  | (k', v') :: rest, k, v =>
    if k' = k then (k, v) :: rest else (k', v') :: counterSet rest k v

/-- The loop `for tag in tags: hashtag_relevance[tag] = score(tag)` over an
initially given counter state. -/
def buildRelevance (f : String → Nat) : List (String × Nat) → List String → List (String × Nat)
  | c, [] => c
  | c, t :: ts => buildRelevance f (counterSet c t (f t)) ts

/-- Left fold keeping the first entry with the strictly greatest value: the
behaviour of Python's builtin `max` over `counter.items()`. -/
def pickBest : (String × Nat) → List (String × Nat) → String × Nat
  | b, [] => b
  | b, p :: ps => pickBest (if p.2 > b.2 then p else b) ps

/-- Model of `Counter.most_common(1)`: for `n = 1` CPython takes `max` over the
insertion-ordered items (first-seen wins ties), returning `[]` when empty. -/
def most_common1 : List (String × Nat) → Option (String × Nat)
  | [] => none
  | p :: ps => some (pickBest p ps)

/-- The RelevanceScorer of lines 421-426: tokenize the description, score every
tag into an insertion-ordered counter, and take `most_common(1)[0][0]`.
`none` models the `IndexError` raised when `tags` is empty. -/
def score_tags (description : String) (tags : List String) : Option String :=
  let words := tokenize description
  (most_common1 (buildRelevance (tagScore words) [] tags)).map Prod.fst

/-- Auxiliary for stating the claims: the greatest score over a tag list. -/
def maxScore (f : String → Nat) : List String → Nat
  | [] => 0
  | t :: ts => max (f t) (maxScore f ts)

/-- The tag the claims describe: the first tag of the input sequence among
those sharing the maximum score. -/
def firstMaxTag (f : String → Nat) (tags : List String) : Option String :=
  (tags.filter (fun t => f t == maxScore f tags)).head?

/-- First occurrences of a list, skipping members of `seen`: the insertion
order of keys of the counter dict. -/
def newKeys (seen : List String) : List String → List String
  | [] => []
  | t :: ts => if t ∈ seen then newKeys seen ts else t :: newKeys (t :: seen) ts

/-! ## Users (`extract_users`, lines 46-178) -/

/-- The core (scalar) part of `user.info`; `name` stands for the remaining
scalar attributes. `top_writer_in` is the multi-valued key popped off. -/
structure UserInfo where
  id : String
  name : String
  top_writer_in : Option (List String)
deriving DecidableEq

/-- A top-writer object returned by the API client. Each attribute access can
raise a network error, modelled by `Except Unit`; `_id` is always available. -/
structure MUser where
  _id : String
  info : Except Unit UserInfo
  followers_ids : Except Unit (List String)
  following_ids : Except Unit (List String)
  article_ids : Except Unit (List String)
deriving DecidableEq

/-- A row of the user-info table: the info dict after popping `top_writer_in`. -/
structure UserRow where
  id : String
  name : String
deriving DecidableEq

/-- The five accumulator tables of `extract_users` plus the error-log trail.
A log entry is `(operation, user_id)` for the four per-user `except` blocks. -/
structure UserTables where
  users_info : List UserRow
  users_top_writer_in : List RelRow
  user_followers : List RelRow
  user_followings : List RelRow
  users_articles : List RelRow
  logs : List (String × String)
deriving DecidableEq

def emptyUserTables : UserTables := ⟨[], [], [], [], [], []⟩

/-- One iteration of the `for user in top_writers_users` loop (lines 72-109):
four independent `try/except` blocks, each touching its own table and logging
with `user._id` on failure. -/
def extract_users_step (acc : UserTables) (user : MUser) : UserTables :=
  -- try: user.info, pop top_writer_in, guarded explode, then info row
  let acc :=
    match user.info with
    | .ok user_info =>
      let acc :=
        match user_info.top_writer_in with
        | some (k :: ks) =>
          { acc with users_top_writer_in :=
              acc.users_top_writer_in ++ explodeRows user_info.id (k :: ks) }
        | _ => acc
      { acc with users_info := acc.users_info ++ [UserRow.mk user_info.id user_info.name] }
    | .error _ => { acc with logs := acc.logs ++ [("info", user._id)] }
  -- try: user.followers_ids, unguarded explode
  let acc :=
    match user.followers_ids with
    | .ok ids => { acc with user_followers := acc.user_followers ++ explodeRows user._id ids }
    | .error _ => { acc with logs := acc.logs ++ [("followers", user._id)] }
  -- try: user.following_ids, unguarded explode
  let acc :=
    match user.following_ids with
    | .ok ids => { acc with user_followings := acc.user_followings ++ explodeRows user._id ids }
    | .error _ => { acc with logs := acc.logs ++ [("following", user._id)] }
  -- try: user.article_ids, unguarded explode
  match user.article_ids with
  | .ok ids => { acc with users_articles := acc.users_articles ++ explodeRows user._id ids }
  | .error _ => { acc with logs := acc.logs ++ [("articles", user._id)] }

/-- The extraction phase of `extract_users`: the loop over all top writers. -/
def extract_users_tables (users : List MUser) : UserTables :=
  users.foldl extract_users_step emptyUserTables

/-- Per-user contribution to the user-info table. -/
def infoRowsOf (u : MUser) : List UserRow :=
  match u.info with
  | .ok i => [⟨i.id, i.name⟩]
  | .error _ => []

/-- Per-user contribution to the top-writer-keyword table (guarded explode). -/
def topWriterRowsOf (u : MUser) : List RelRow :=
  match u.info with
  | .ok i => optTruthyRows i.id i.top_writer_in
  | .error _ => []

/-- Per-user contribution to the followers table (unguarded explode). -/
def followerRowsOf (u : MUser) : List RelRow :=
  match u.followers_ids with
  | .ok ids => explodeRows u._id ids
  | .error _ => []

/-- Per-user contribution to the followings table (unguarded explode). -/
def followingRowsOf (u : MUser) : List RelRow :=
  match u.following_ids with
  | .ok ids => explodeRows u._id ids
  | .error _ => []

/-- Per-user contribution to the user-articles table (unguarded explode). -/
def articleRowsOf (u : MUser) : List RelRow :=
  match u.article_ids with
  | .ok ids => explodeRows u._id ids
  | .error _ => []

/-- Per-user log entries: one per failed sub-operation, carrying `user._id`. -/
def logRowsOf (u : MUser) : List (String × String) :=
  (match u.info with | .ok _ => [] | .error _ => [("info", u._id)]) ++
  (match u.followers_ids with | .ok _ => [] | .error _ => [("followers", u._id)]) ++
  (match u.following_ids with | .ok _ => [] | .error _ => [("following", u._id)]) ++
  (match u.article_ids with | .ok _ => [] | .error _ => [("articles", u._id)])

/-! ## Warehouse loading (the `if load_to_bq:` blocks) -/

/-- Model of `google_cloud_config.get(key)`: `None` when the key is absent. -/
def cfgGet (cfg : List (String × String)) (k : String) : Option String :=
  match cfg.find? (fun p => p.1 == k) with
  | some p => some p.2
  | none => none

/-- Python f-string rendering of an optional value: `None` prints as "None". -/
def pyStr : Option String → String
  | some s => s
  | none => "None"

/-- One attempted `to_gbq(df, f"{project}.{dataset}.{table}", ...)` call inside
its own `try/except`: the destination string is built with f-string rendering,
and the outcome of the external append is recorded, never raised. -/
structure LoadAttempt where
  table : Option String
  dest : String
  ok : Bool
deriving DecidableEq

/-- Build one load attempt for a destination table name. -/
def mkAttempt (project_id dataset_id tbl : Option String) (loader : String → Bool) :
    LoadAttempt :=
  let dest := pyStr project_id ++ "." ++ pyStr dataset_id ++ "." ++ pyStr tbl
  ⟨tbl, dest, loader dest⟩

/-- The load phase of `extract_users` (lines 111-176): read the config keys,
load credentials (uncaught on failure — `credsOk` models
`service_account.Credentials.from_service_account_file`), then attempt each of
the five destination tables independently. -/
def load_users_to_bq (cfg : List (String × String)) (credsOk : Option String → Bool)
    (loader : String → Bool) : Except Unit (List LoadAttempt) :=
  let project_id := cfgGet cfg "project"
  let dataset_id := cfgGet cfg "dataset_id"
  let credentials_path := cfgGet cfg "credentials_path"
  if credsOk credentials_path then
    .ok [mkAttempt project_id dataset_id (cfgGet cfg "user_info_table") loader,
         mkAttempt project_id dataset_id (cfgGet cfg "users_top_writer_in_table") loader,
         mkAttempt project_id dataset_id (cfgGet cfg "user_followers_table") loader,
         mkAttempt project_id dataset_id (cfgGet cfg "user_followings_table") loader,
         mkAttempt project_id dataset_id (cfgGet cfg "users_articles_table") loader]
  else .error ()

/-- Full `extract_users`: extraction loop, then the optional load phase; the
tables are returned unless an uncaught credentials failure aborts the call. -/
def extract_users (users : List MUser) (cfg : List (String × String))
    (credsOk : Option String → Bool) (loader : String → Bool) (load_to_bq : Bool) :
    Except Unit (UserTables × List LoadAttempt) :=
  let tables := extract_users_tables users
  if load_to_bq then
    match load_users_to_bq cfg credsOk loader with
    | .error e => .error e
    | .ok atts => .ok (tables, atts)
  else .ok (tables, [])

/-! ## Articles (`fetch_user_articles_info`, lines 181-276) -/

/-- Scalar part of a comment's `info` dict plus its two multi-valued keys. -/
structure CommentInfo where
  id : String
  tags : Option (List String)
  topics : Option (List String)
deriving DecidableEq

/-- A comment object; `comment.info` may raise. -/
structure MComment where
  info : Except Unit CommentInfo
deriving DecidableEq

/-- Scalar part of `article_object.info` plus its two multi-valued keys. -/
structure ArticleInfo where
  id : String
  title : String
  tags : Option (List String)
  topics : Option (List String)
deriving DecidableEq

/-- An article object returned by `medium_instance.article(...)`; every
attribute access may raise. -/
structure MArticle where
  info : Except Unit ArticleInfo
  fans_ids : Except Unit (List String)
  related_articles_ids : Except Unit (List String)
  is_self_published : Except Unit Bool
  content : Except Unit String
  markdown : Except Unit String
  responses : Except Unit (List MComment)
deriving DecidableEq

/-- A row of the articles-info table after the pops. -/
structure ArticleRow where
  id : String
  title : String
  is_self_published : Bool
  content : String
  markdown : String
deriving DecidableEq

/-- A row of the comments-info table: the comment scalars plus the owning
article id injected by the orchestrator (the raw `users_articles` row value,
hence an `Option`). -/
structure CommentRow where
  id : String
  article_id : Option String
deriving DecidableEq

/-- The eight accumulator tables of `fetch_user_articles_info`. -/
structure ArticleTables where
  articles_info : List ArticleRow
  article_tags : List RelRow
  article_topics : List RelRow
  article_fans_id : List RelRow
  article_related_articles_ids : List RelRow
  articles_comments_info : List CommentRow
  article_comments_tag_info : List RelRow
  article_comments_topic_info : List RelRow
deriving DecidableEq

def emptyArticleTables : ArticleTables := ⟨[], [], [], [], [], [], [], []⟩

/-- Componentwise concatenation of article tables. -/
def appendArticleTables (a b : ArticleTables) : ArticleTables :=
  ⟨a.articles_info ++ b.articles_info,
   a.article_tags ++ b.article_tags,
   a.article_topics ++ b.article_topics,
   a.article_fans_id ++ b.article_fans_id,
   a.article_related_articles_ids ++ b.article_related_articles_ids,
   a.articles_comments_info ++ b.articles_comments_info,
   a.article_comments_tag_info ++ b.article_comments_tag_info,
   a.article_comments_topic_info ++ b.article_comments_topic_info⟩

/-- Sequential effectful map: the Python `for` loop over fallible bodies — the
first uncaught exception aborts the whole loop. -/
def mapExcept (f : α → Except Unit β) : List α → Except Unit (List β)
  | [] => .ok []
  | a :: l =>
    match f a with
    | .error e => .error e
    | .ok b =>
      match mapExcept f l with
      | .error e => .error e
      | .ok bs => .ok (b :: bs)

/-- Processing of one comment inside the comment loop (lines 257-274): fetch
`comment.info` (may raise, uncaught), inject the owning article id, pop tags
and topics, and build the (info row, tag rows, topic rows) fragment. -/
def comment_tables (aid : Option String) (c : MComment) :
    Except Unit (CommentRow × List RelRow × List RelRow) :=
  match c.info with
  | .error e => .error e
  | .ok ci => .ok (⟨ci.id, aid⟩, optTruthyRows ci.id ci.tags, optTruthyRows ci.id ci.topics)

/-- One iteration of the `for index, row in users_articles_df.iterrows()` loop
(lines 221-274). No `try/except` wraps any of it: any raised error is
propagated as `Except.error`. -/
def article_row_tables (fetch : Option String → Except Unit MArticle)
    (aid : Option String) : Except Unit ArticleTables :=
  match fetch aid with
  | .error e => .error e
  | .ok a =>
    match a.info with
    | .error e => .error e
    | .ok info =>
      match a.fans_ids with
      | .error e => .error e
      | .ok fans =>
        match a.related_articles_ids with
        | .error e => .error e
        | .ok related =>
          match a.is_self_published with
          | .error e => .error e
          | .ok self_pub =>
            match a.content with
            | .error e => .error e
            | .ok content =>
              match a.markdown with
              | .error e => .error e
              | .ok markdown =>
                match a.responses with
                | .error e => .error e
                | .ok comments =>
                  match mapExcept (comment_tables aid) comments with
                  | .error e => .error e
                  | .ok cparts =>
                    .ok ⟨[⟨info.id, info.title, self_pub, content, markdown⟩],
                         optTruthyRows info.id info.tags,
                         optTruthyRows info.id info.topics,
                         listTruthyRows info.id fans,
                         listTruthyRows info.id related,
                         cparts.map (·.1),
                         (cparts.map (·.2.1)).flatten,
                         (cparts.map (·.2.2)).flatten⟩

/-- Extraction phase of `fetch_user_articles_info`: process every
`users_articles` row in order; the first failure aborts the whole call and no
tables are returned. -/
def fetch_user_articles_info (fetch : Option String → Except Unit MArticle)
    (rows : List (Option String)) : Except Unit ArticleTables :=
  match mapExcept (article_row_tables fetch) rows with
  | .error e => .error e
  | .ok frags => .ok (frags.foldl appendArticleTables emptyArticleTables)

/-! ## Publications (`fetch_publications_info`, lines 384-501) -/

/-- `publication.info` after the API call, with the two poppable keys. -/
structure PublicationInfo where
  id : String
  description : String
  tags : Option (List String)
  editors : Option (List String)
deriving DecidableEq

/-- A publication object: its info dict and its owned article ids. -/
structure MPublication where
  info : PublicationInfo
  articles : List String
deriving DecidableEq

/-- A row of the publication-info table: scalars plus the derived tag. -/
structure PublicationRow where
  id : String
  description : String
  most_relevant_tag : String
deriving DecidableEq

/-- The four accumulator tables of `fetch_publications_info`. -/
structure PublicationTables where
  publication_info : List PublicationRow
  publication_tags : List RelRow
  publication_editors : List RelRow
  publication_articles : List RelRow
deriving DecidableEq

def emptyPublicationTables : PublicationTables := ⟨[], [], [], []⟩

/-- Componentwise concatenation of publication tables. -/
def appendPublicationTables (a b : PublicationTables) : PublicationTables :=
  ⟨a.publication_info ++ b.publication_info,
   a.publication_tags ++ b.publication_tags,
   a.publication_editors ++ b.publication_editors,
   a.publication_articles ++ b.publication_articles⟩

/-- One iteration of the `for publication in publications` loop (lines
413-444), not wrapped in any `try/except`: an absent tags key makes
`for tag in None` raise `TypeError`, and an empty tag list makes
`most_common(1)[0]` raise `IndexError`; both abort the whole call. -/
def publication_row_tables (p : MPublication) : Except Unit PublicationTables :=
  match p.info.tags with
  | none => .error ()
  | some tags =>
    match score_tags p.info.description tags with
    | none => .error ()
    | some best =>
      .ok ⟨[⟨p.info.id, p.info.description, best⟩],
           listTruthyRows p.info.id tags,
           optTruthyRows p.info.id p.info.editors,
           listTruthyRows p.info.id p.articles⟩

/-- Extraction phase of `fetch_publications_info`: process every publication in
order; the first failure aborts the whole call. -/
def fetch_publications_info (pubs : List MPublication) : Except Unit PublicationTables :=
  match mapExcept publication_row_tables pubs with
  | .error e => .error e
  | .ok frags => .ok (frags.foldl appendPublicationTables emptyPublicationTables)

/-! ## Top feeds (`fetch_top_feeds`, lines 504-556) -/

/-- A calendar date, as produced once by `datetime.now().date()`. -/
structure DateYMD where
  y : Nat
  m : Nat
  d : Nat
deriving DecidableEq

/-- Model of `date.strftime('%Y-%m-%d')` for four-digit years: the digits of
the year, month and day zero-padded into the fixed `YYYY-MM-DD` shape. -/
def formatYmd (t : DateYMD) : String :=
  String.mk [Nat.digitChar (t.y / 1000 % 10), Nat.digitChar (t.y / 100 % 10),
             Nat.digitChar (t.y / 10 % 10), Nat.digitChar (t.y % 10), '-',
             Nat.digitChar (t.m / 10 % 10), Nat.digitChar (t.m % 10), '-',
             Nat.digitChar (t.d / 10 % 10), Nat.digitChar (t.d % 10)]

/-- A row of the top-feeds table. -/
structure TopFeedRow where
  feed_mode : String
  captured_on_date : String
  article_id : Option String
deriving DecidableEq

/-- Rows contributed by one feed mode: the `(mode, date, ids)` frame exploded
on `article_id` (empty id list ⇒ one `NaN` row, as everywhere). -/
def top_feed_rows_for_mode (today : DateYMD) (feed : String) (ids : List String) :
    List TopFeedRow :=
  match ids with
  | [] => [⟨feed, formatYmd today, none⟩]
  | v :: vs => (v :: vs).map (fun a => ⟨feed, formatYmd today, some a⟩)

/-- The `for feed in feed_mode` loop of lines 523-535, over the single date
captured before the loop. -/
def top_feeds_tables (today : DateYMD) (feed_mode : List String)
    (topfeeds : String → List String) : List TopFeedRow :=
  feed_mode.foldl (fun acc feed => acc ++ top_feed_rows_for_mode today feed (topfeeds feed)) []

/-- Full `fetch_top_feeds`: capture the date once, run the mode loop, then the
optional single-table load phase. -/
def fetch_top_feeds (today : DateYMD) (feed_mode : List String)
    (topfeeds : String → List String) (cfg : List (String × String))
    (credsOk : Option String → Bool) (loader : String → Bool) (load_to_bq : Bool) :
    Except Unit (List TopFeedRow × List LoadAttempt) :=
  let top_feeds_df := top_feeds_tables today feed_mode topfeeds
  if load_to_bq then
    if credsOk (cfgGet cfg "credentials_path") then
      .ok (top_feeds_df,
           [mkAttempt (cfgGet cfg "project") (cfgGet cfg "dataset_id")
              (cfgGet cfg "top_feeds_table") loader])
    else .error ()
  else .ok (top_feeds_df, [])

/-- Componentwise concatenation of user tables and logs. -/
def appendUserTables (a b : UserTables) : UserTables :=
  ⟨a.users_info ++ b.users_info,
   a.users_top_writer_in ++ b.users_top_writer_in,
   a.user_followers ++ b.user_followers,
   a.user_followings ++ b.user_followings,
   a.users_articles ++ b.users_articles,
   a.logs ++ b.logs⟩

/-! ## Concrete fixtures used to check the claims on closed inputs -/

/-- Top writer with three article ids (and empty follower lists). -/
def writer1 : MUser :=
  ⟨"u1", .ok ⟨"u1", "Alice", some ["k1"]⟩, .ok [], .ok [], .ok ["a1", "a2", "a3"]⟩

/-- Top writer whose article-id list is empty. -/
def writer2 : MUser := ⟨"u2", .ok ⟨"u2", "Bob", none⟩, .ok [], .ok [], .ok []⟩

/-- User whose follower fetch raises while everything else succeeds. -/
def writerFollowersFail : MUser :=
  ⟨"u3", .ok ⟨"u3", "Carol", none⟩, .error (), .ok [], .ok []⟩

/-- User whose article-id fetch raises while everything else succeeds. -/
def writerArticlesFail : MUser :=
  ⟨"u4", .ok ⟨"u4", "Dan", none⟩, .ok [], .ok [], .error ()⟩

/-- A fully healthy article object with one comment. -/
def articleOk : MArticle :=
  ⟨.ok ⟨"a2", "T2", some ["tg"], none⟩, .ok ["f1"], .ok [], .ok true, .ok "c", .ok "m",
   .ok [⟨.ok ⟨"cm1", none, none⟩⟩]⟩

/-- Article fetcher failing for every id except "a2". -/
def fetchMock : Option String → Except Unit MArticle
  | some "a2" => .ok articleOk
  | _ => .error ()

/-- Publication with an empty tag list. -/
def pubEmptyTags : MPublication := ⟨⟨"p1", "d", some [], some ["e1"]⟩, ["pa1"]⟩

/-- Healthy publication. -/
def pubGood : MPublication := ⟨⟨"p2", "data stuff", some ["data"], none⟩, ["pa2"]⟩

/-- Config with every key the users load phase reads. -/
def cfgFull : List (String × String) :=
  [("project", "p"), ("dataset_id", "d"), ("credentials_path", "creds"),
   ("user_info_table", "t1"), ("users_top_writer_in_table", "t2"),
   ("user_followers_table", "t3"), ("user_followings_table", "t4"),
   ("users_articles_table", "t5")]

/-- Config whose required `user_info_table` key is missing. -/
def cfgMissingTable : List (String × String) :=
  [("project", "p"), ("dataset_id", "d"), ("credentials_path", "creds"),
   ("users_top_writer_in_table", "t2"), ("user_followers_table", "t3"),
   ("user_followings_table", "t4"), ("users_articles_table", "t5")]

/-- Credential check accepting exactly the path "creds". -/
def credsOkMock : Option String → Bool := fun c => c == some "creds"

/-- Loader failing exactly for destination "p.d.t3". -/
def loaderFailT3 : String → Bool := fun d => !(d == "p.d.t3")

/-- Feed source with one article for mode "hot" and nothing otherwise. -/
def feedsMock : String → List String := fun m => if m == "hot" then ["a1"] else []

/-! ## Helper lemmas about the RelevanceScorer -/

theorem counterSet_not_mem : ∀ (c : List (String × Nat)) (k : String) (v : Nat),
    (∀ p ∈ c, p.1 ≠ k) → counterSet c k v = c ++ [(k, v)] := by
  intro c
  induction c with
  | nil => intro k v _; rfl
  | cons p rest ih =>
    intro k v h
    have hp : p.1 ≠ k := h p (List.mem_cons_self p rest)
    obtain ⟨k', v'⟩ := p
    simp only [counterSet, if_neg hp, List.cons_append, List.cons.injEq, true_and]
    exact ih k v (fun q hq => h q (List.mem_cons_of_mem _ hq))

theorem counterSet_mem (f : String → Nat) : ∀ (c : List (String × Nat)) (k : String),
    (∀ p ∈ c, p.2 = f p.1) → (∃ p ∈ c, p.1 = k) → counterSet c k (f k) = c := by
  intro c
  induction c with
  | nil => intro k _ hex; simp at hex
  | cons p rest ih =>
    intro k hinv hex
    obtain ⟨k', v'⟩ := p
    by_cases hk : k' = k
    · have hv : v' = f k' := hinv (k', v') (List.mem_cons_self _ _)
      simp only [counterSet, if_pos hk]
      subst hk
      rw [hv]
    · simp only [counterSet, if_neg hk, List.cons.injEq, true_and]
      apply ih k (fun q hq => hinv q (List.mem_cons_of_mem _ hq))
      obtain ⟨q, hq, hqk⟩ := hex
      rcases List.mem_cons.mp hq with h1 | h2
      · exact absurd (by rw [h1] at hqk; exact hqk) hk
      · exact ⟨q, h2, hqk⟩

theorem newKeys_congr : ∀ (ts s₁ s₂ : List String), (∀ x, x ∈ s₁ ↔ x ∈ s₂) →
    newKeys s₁ ts = newKeys s₂ ts := by
  intro ts
  induction ts with
  | nil => intro s₁ s₂ _; rfl
  | cons t ts ih =>
    intro s₁ s₂ h
    by_cases ht : t ∈ s₁
    · rw [newKeys, if_pos ht, newKeys, if_pos ((h t).mp ht)]
      exact ih s₁ s₂ h
    · rw [newKeys, if_neg ht, newKeys, if_neg (fun hc => ht ((h t).mpr hc))]
      refine congrArg _ (ih (t :: s₁) (t :: s₂) (fun x => ?_))
      simp only [List.mem_cons, h x]

theorem mem_newKeys : ∀ (ts seen : List String) (x : String),
    x ∈ newKeys seen ts ↔ x ∈ ts ∧ x ∉ seen := by
  intro ts
  induction ts with
  | nil => intro seen x; simp [newKeys]
  | cons t ts ih =>
    intro seen x
    by_cases ht : t ∈ seen
    · rw [newKeys, if_pos ht, ih seen x]
      constructor
      · exact fun ⟨h1, h2⟩ => ⟨List.mem_cons_of_mem _ h1, h2⟩
      · rintro ⟨h1, h2⟩
        rcases List.mem_cons.mp h1 with rfl | h3
        · exact absurd ht h2
        · exact ⟨h3, h2⟩
    · rw [newKeys, if_neg ht]
      constructor
      · intro hm
        rcases List.mem_cons.mp hm with rfl | h3
        · exact ⟨List.mem_cons_self _ _, ht⟩
        · obtain ⟨h4, h5⟩ := (ih (t :: seen) x).mp h3
          exact ⟨List.mem_cons_of_mem _ h4,
                 fun hc => h5 (List.mem_cons_of_mem _ hc)⟩
      · rintro ⟨h1, h2⟩
        by_cases hxt : x = t
        · exact hxt ▸ List.mem_cons_self _ _
        · rcases List.mem_cons.mp h1 with rfl | h3
          · exact absurd rfl hxt
          · exact List.mem_cons_of_mem _ ((ih (t :: seen) x).mpr
              ⟨h3, fun hc => (List.mem_cons.mp hc).elim hxt h2⟩)

theorem newKeys_filter_head (q : String → Bool) : ∀ (ts seen : List String),
    (∀ s ∈ seen, q s = false) →
    ((newKeys seen ts).filter q).head? = (ts.filter q).head? := by
  intro ts
  induction ts with
  | nil => intro seen _; rfl
  | cons t ts ih =>
    intro seen h
    by_cases ht : t ∈ seen
    · rw [newKeys, if_pos ht, List.filter_cons, if_neg (by simp [h t ht])]
      exact ih seen h
    · rw [newKeys, if_neg ht]
      by_cases hq : q t = true
      · rw [List.filter_cons, if_pos (by simp [hq]), List.filter_cons, if_pos (by simp [hq])]
        simp
      · rw [List.filter_cons, if_neg (by simp_all), List.filter_cons, if_neg (by simp_all)]
        exact ih (t :: seen) (fun s hs => (List.mem_cons.mp hs).elim
          (fun he => he ▸ (Bool.eq_false_iff.mpr hq)) (h s))

theorem buildRelevance_eq (f : String → Nat) : ∀ (ts : List String) (c : List (String × Nat)),
    (∀ p ∈ c, p.2 = f p.1) →
    buildRelevance f c ts = c ++ (newKeys (c.map Prod.fst) ts).map (fun t => (t, f t)) := by
  intro ts
  induction ts with
  | nil => intro c _; simp [buildRelevance, newKeys]
  | cons t ts ih =>
    intro c hinv
    by_cases ht : t ∈ c.map Prod.fst
    · have hex : ∃ p ∈ c, p.1 = t := by
        obtain ⟨p, hp, hpt⟩ := List.mem_map.mp ht
        exact ⟨p, hp, hpt⟩
      rw [buildRelevance, counterSet_mem f c t hinv hex, newKeys, if_pos ht]
      exact ih c hinv
    · have hne : ∀ p ∈ c, p.1 ≠ t := by
        intro p hp hc
        exact ht (List.mem_map.mpr ⟨p, hp, hc⟩)
      rw [buildRelevance, counterSet_not_mem c t (f t) hne, newKeys, if_neg ht]
      rw [ih (c ++ [(t, f t)]) (by
        intro p hp
        rcases List.mem_append.mp hp with h1 | h2
        · exact hinv p h1
        · simp at h2; subst h2; rfl)]
      rw [newKeys_congr ts ((c ++ [(t, f t)]).map Prod.fst) (t :: c.map Prod.fst) (by
        intro x
        simp [List.mem_append, List.mem_cons, or_comm])]
      simp [List.append_assoc]

theorem pickBest_spec : ∀ (L : List (String × Nat)) (b : String × Nat),
    pickBest b L ∈ b :: L ∧ (∀ p ∈ b :: L, p.2 ≤ (pickBest b L).2) ∧
    ((b :: L).filter (fun p => decide ((pickBest b L).2 ≤ p.2))).head? =
      some (pickBest b L) := by
  intro L
  induction L with
  | nil =>
    intro b
    refine ⟨List.mem_cons_self _ _, ?_, ?_⟩
    · intro p hp
      rcases List.mem_cons.mp hp with rfl | h
      · exact Nat.le_refl _
      · simp at h
    · simp [pickBest]
  | cons p ps ih =>
    intro b
    by_cases hpb : p.2 > b.2
    · have hstep : pickBest b (p :: ps) = pickBest p ps := by
        simp [pickBest, if_pos hpb]
      obtain ⟨hmem, hbd, hhead⟩ := ih p
      have hple : p.2 ≤ (pickBest p ps).2 := hbd p (List.mem_cons_self _ _)
      refine ⟨?_, ?_, ?_⟩
      · rw [hstep]
        exact List.mem_cons_of_mem _ hmem
      · intro q hq
        rw [hstep]
        rcases List.mem_cons.mp hq with rfl | h2
        · exact Nat.le_trans (Nat.le_of_lt hpb) hple
        · exact hbd q h2
      · rw [hstep, List.filter_cons, if_neg (by
          simp only [decide_eq_true_eq]
          intro hc
          exact Nat.lt_irrefl _ (Nat.lt_of_lt_of_le hpb (Nat.le_trans hple hc)))]
        exact hhead
    · have hstep : pickBest b (p :: ps) = pickBest b ps := by
        simp [pickBest, if_neg hpb]
      have hpb' : p.2 ≤ b.2 := Nat.le_of_not_lt hpb
      obtain ⟨hmem, hbd, hhead⟩ := ih b
      have hble : b.2 ≤ (pickBest b ps).2 := hbd b (List.mem_cons_self _ _)
      refine ⟨?_, ?_, ?_⟩
      · rw [hstep]
        rcases List.mem_cons.mp hmem with he | h2
        · rw [he]
          exact List.mem_cons_self _ _
        · exact List.mem_cons_of_mem _ (List.mem_cons_of_mem _ h2)
      · intro q hq
        rw [hstep]
        rcases List.mem_cons.mp hq with rfl | h2
        · exact hble
        · rcases List.mem_cons.mp h2 with rfl | h3
          · exact Nat.le_trans hpb' hble
          · exact hbd q (List.mem_cons_of_mem _ h3)
      · rw [hstep]
        by_cases hrb : (pickBest b ps).2 ≤ b.2
        · rw [List.filter_cons, if_pos (by simp [hrb]), List.head?_cons] at hhead
          have hrbb : pickBest b ps = b := (Option.some.inj hhead).symm
          rw [List.filter_cons, if_pos (by simp [hrb]), List.head?_cons, hrbb]
        · have hlt : b.2 < (pickBest b ps).2 := Nat.lt_of_not_le hrb
          rw [List.filter_cons, if_neg (by
            simp only [decide_eq_true_eq]
            exact hrb)]
          rw [List.filter_cons, if_neg (by
            simp only [decide_eq_true_eq]
            intro hc
            exact hrb (Nat.le_trans hc hpb'))]
          rw [List.filter_cons, if_neg (by
            simp only [decide_eq_true_eq]
            exact hrb)] at hhead
          exact hhead

theorem maxScore_le (f : String → Nat) : ∀ (l : List String) (x : String),
    x ∈ l → f x ≤ maxScore f l := by
  intro l
  induction l with
  | nil => intro x hx; simp at hx
  | cons t ts ih =>
    intro x hx
    rcases List.mem_cons.mp hx with rfl | h2
    · exact Nat.le_max_left _ _
    · exact Nat.le_trans (ih x h2) (Nat.le_max_right _ _)

theorem maxScore_attained (f : String → Nat) : ∀ (t : String) (ts : List String),
    ∃ x ∈ t :: ts, maxScore f (t :: ts) = f x := by
  intro t ts
  induction ts generalizing t with
  | nil => exact ⟨t, List.mem_cons_self _ _, by simp [maxScore]⟩
  | cons u us ih =>
    obtain ⟨x, hx, hmx⟩ := ih u
    by_cases h : f t ≤ maxScore f (u :: us)
    · refine ⟨x, List.mem_cons_of_mem _ hx, ?_⟩
      rw [maxScore, Nat.max_eq_right h, hmx]
    · refine ⟨t, List.mem_cons_self _ _, ?_⟩
      rw [maxScore, Nat.max_eq_left (Nat.le_of_not_le h)]

theorem filter_map_pair (f : String → Nat) (r2 : Nat) : ∀ (D : List String),
    (D.map (fun x => (x, f x))).filter (fun p => decide (r2 ≤ p.2)) =
    (D.filter (fun x => decide (r2 ≤ f x))).map (fun x => (x, f x)) := by
  intro D
  induction D with
  | nil => rfl
  | cons d ds ih =>
    by_cases h : r2 ≤ f d
    · rw [List.map_cons, List.filter_cons, if_pos (by simp [h]),
          List.filter_cons, if_pos (by simp [h]), List.map_cons, ih]
    · rw [List.map_cons, List.filter_cons, if_neg (by simp [h]),
          List.filter_cons, if_neg (by simp [h]), ih]

/-- Core fact about the inline scorer: building the insertion-ordered counter
over a non-empty tag list and taking `most_common(1)[0][0]` returns exactly the
first tag of the input sequence among those sharing the maximum score. -/
theorem most_common_firstMax (f : String → Nat) (t : String) (ts : List String) :
    (most_common1 (buildRelevance f [] (t :: ts))).map Prod.fst =
      firstMaxTag f (t :: ts) := by
  have hbuild : buildRelevance f [] (t :: ts) =
      (newKeys [] (t :: ts)).map (fun x => (x, f x)) := by
    have h := buildRelevance_eq f (t :: ts) [] (by intro p hp; simp at hp)
    simpa using h
  have hnk : newKeys [] (t :: ts) = t :: newKeys [t] ts := by
    rw [newKeys, if_neg (by simp)]
  have hmapD : (newKeys [] (t :: ts)).map (fun x => (x, f x)) =
      (t, f t) :: (newKeys [t] ts).map (fun x => (x, f x)) := by
    rw [hnk, List.map_cons]
  obtain ⟨hmem, hbd, hhead⟩ :=
    pickBest_spec ((newKeys [t] ts).map (fun x => (x, f x))) (t, f t)
  set r := pickBest (t, f t) ((newKeys [t] ts).map (fun x => (x, f x))) with hrdef
  rw [← hmapD] at hmem hbd hhead
  -- r is a (tag, score) pair over a tag that occurs in the input list
  obtain ⟨d, hdD, hdr⟩ := List.mem_map.mp hmem
  have hr1 : r.1 = d := by rw [← hdr]
  have hr2 : r.2 = f r.1 := by rw [← hdr]
  have hdmem : r.1 ∈ t :: ts := by
    rw [hr1]
    exact ((mem_newKeys (t :: ts) [] d).mp hdD).1
  -- every tag's score is bounded by r's score
  have hboundAll : ∀ x ∈ t :: ts, f x ≤ r.2 := by
    intro x hx
    have hxD : x ∈ newKeys [] (t :: ts) :=
      (mem_newKeys (t :: ts) [] x).mpr ⟨hx, by simp⟩
    exact hbd (x, f x) (List.mem_map.mpr ⟨x, hxD, rfl⟩)
  -- r's score is the maximum score
  have hmax : maxScore f (t :: ts) = r.2 := by
    apply Nat.le_antisymm
    · obtain ⟨x, hx, hmx⟩ := maxScore_attained f t ts
      rw [hmx]
      exact hboundAll x hx
    · rw [hr2]
      exact maxScore_le f (t :: ts) r.1 hdmem
  -- the filtered head over the deduplicated keys, then over the raw tag list
  have hfilterD : ((newKeys [] (t :: ts)).filter
      (fun x => decide (r.2 ≤ f x))).head? = some r.1 := by
    rw [filter_map_pair f r.2 (newKeys [] (t :: ts))] at hhead
    rw [List.head?_map] at hhead
    cases hopt : ((newKeys [] (t :: ts)).filter (fun x => decide (r.2 ≤ f x))).head? with
    | none => rw [hopt] at hhead; simp at hhead
    | some d0 =>
      rw [hopt] at hhead
      simp only [Option.map_some'] at hhead
      have hd0 : (d0, f d0) = r := Option.some.inj hhead
      rw [← hd0]
  have hfilterTags : ((t :: ts).filter (fun x => decide (r.2 ≤ f x))).head? = some r.1 := by
    rw [← newKeys_filter_head (fun x => decide (r.2 ≤ f x)) (t :: ts) [] (by simp)]
    exact hfilterD
  -- the filter predicate agrees with the claim's formulation on the tag list
  have hpredeq : ∀ x ∈ t :: ts,
      (f x == maxScore f (t :: ts)) = (decide (r.2 ≤ f x)) := by
    intro x hx
    by_cases hfx : f x = r.2
    · simp [hfx, hmax]
    · have hlt : f x < r.2 := Nat.lt_of_le_of_ne (hboundAll x hx) hfx
      have h1 : ¬ (r.2 ≤ f x) := Nat.not_le_of_lt hlt
      have h2 : ¬ (f x = maxScore f (t :: ts)) := by rw [hmax]; exact hfx
      simp [h1, h2]
  rw [hbuild, hmapD, most_common1, ← hrdef, firstMaxTag,
      List.filter_congr hpredeq, hfilterTags]
  rfl

/-! ## Helper lemmas about `extract_users` -/

/-- One loop iteration appends each user's per-table contribution; each
contribution depends only on the attribute its own `try` block fetches. -/
theorem extract_users_step_eq (acc : UserTables) (u : MUser) :
    extract_users_step acc u =
      ⟨acc.users_info ++ infoRowsOf u,
       acc.users_top_writer_in ++ topWriterRowsOf u,
       acc.user_followers ++ followerRowsOf u,
       acc.user_followings ++ followingRowsOf u,
       acc.users_articles ++ articleRowsOf u,
       acc.logs ++ logRowsOf u⟩ := by
  cases hi : u.info with
  | ok i =>
    cases htw : i.top_writer_in with
    | none =>
      cases hf : u.followers_ids <;> cases hg : u.following_ids <;>
        cases ha : u.article_ids <;>
        simp [extract_users_step, infoRowsOf, topWriterRowsOf, followerRowsOf,
          followingRowsOf, articleRowsOf, logRowsOf, optTruthyRows, hi, htw, hf, hg, ha]
    | some l =>
      cases l with
      | nil =>
        cases hf : u.followers_ids <;> cases hg : u.following_ids <;>
          cases ha : u.article_ids <;>
          simp [extract_users_step, infoRowsOf, topWriterRowsOf, followerRowsOf,
            followingRowsOf, articleRowsOf, logRowsOf, optTruthyRows, hi, htw, hf, hg, ha]
      | cons k ks =>
        cases hf : u.followers_ids <;> cases hg : u.following_ids <;>
          cases ha : u.article_ids <;>
          simp [extract_users_step, infoRowsOf, topWriterRowsOf, followerRowsOf,
            followingRowsOf, articleRowsOf, logRowsOf, optTruthyRows, hi, htw, hf, hg, ha]
  | error e =>
    cases hf : u.followers_ids <;> cases hg : u.following_ids <;>
      cases ha : u.article_ids <;>
      simp [extract_users_step, infoRowsOf, topWriterRowsOf, followerRowsOf,
        followingRowsOf, articleRowsOf, logRowsOf, optTruthyRows, hi, hf, hg, ha]

/-- The whole user loop, from an arbitrary accumulator. -/
theorem extract_users_foldl_eq : ∀ (users : List MUser) (acc : UserTables),
    users.foldl extract_users_step acc =
      ⟨acc.users_info ++ users.flatMap infoRowsOf,
       acc.users_top_writer_in ++ users.flatMap topWriterRowsOf,
       acc.user_followers ++ users.flatMap followerRowsOf,
       acc.user_followings ++ users.flatMap followingRowsOf,
       acc.users_articles ++ users.flatMap articleRowsOf,
       acc.logs ++ users.flatMap logRowsOf⟩ := by
  intro users
  induction users with
  | nil => intro acc; simp
  | cons u us ih =>
    intro acc
    rw [List.foldl_cons, extract_users_step_eq, ih]
    simp

/-- Closed form of the extraction phase of `extract_users`: every table is the
in-order concatenation of per-user contributions, and each user's contribution
to each table depends only on the attribute fetched by that table's own
`try` block. -/
theorem extract_users_tables_eq (users : List MUser) :
    extract_users_tables users =
      ⟨users.flatMap infoRowsOf,
       users.flatMap topWriterRowsOf,
       users.flatMap followerRowsOf,
       users.flatMap followingRowsOf,
       users.flatMap articleRowsOf,
       users.flatMap logRowsOf⟩ := by
  rw [extract_users_tables, extract_users_foldl_eq]
  rfl

/-! ## Helper lemmas about error propagation and the remaining stages -/

theorem mapExcept_error (f : α → Except Unit β) : ∀ (l : List α),
    (∃ a ∈ l, f a = .error ()) → mapExcept f l = .error () := by
  intro l
  induction l with
  | nil => rintro ⟨a, ha, _⟩; simp at ha
  | cons a as ih =>
    rintro ⟨b, hb, hberr⟩
    rcases List.mem_cons.mp hb with rfl | h2
    · simp only [mapExcept, hberr]
    · cases hfa : f a with
      | error e =>
        cases e
        simp only [mapExcept, hfa]
      | ok v =>
        simp only [mapExcept, hfa, ih ⟨b, h2, hberr⟩]

theorem fetch_user_articles_info_error (fetch : Option String → Except Unit MArticle)
    (rows : List (Option String)) (h : ∃ r ∈ rows, article_row_tables fetch r = .error ()) :
    fetch_user_articles_info fetch rows = .error () := by
  rw [fetch_user_articles_info, mapExcept_error _ rows h]

theorem fetch_publications_info_error (pubs : List MPublication)
    (h : ∃ p ∈ pubs, publication_row_tables p = .error ()) :
    fetch_publications_info pubs = .error () := by
  rw [fetch_publications_info, mapExcept_error _ pubs h]

theorem score_tags_nil (description : String) : score_tags description [] = none := rfl

theorem publication_row_tables_empty_tags (p : MPublication) (h : p.info.tags = some []) :
    publication_row_tables p = .error () := by
  rw [publication_row_tables, h]
  rfl

/-- The per-stage user isolation in closed form: the tables of a concatenated
user list are the concatenated tables. -/
theorem extract_users_tables_append (xs ys : List MUser) :
    extract_users_tables (xs ++ ys) =
      appendUserTables (extract_users_tables xs) (extract_users_tables ys) := by
  rw [extract_users_tables_eq, extract_users_tables_eq, extract_users_tables_eq,
      appendUserTables]
  simp [List.flatMap_append]

theorem firstMaxTag_spec (f : String → Nat) (t : String) (ts : List String) :
    ∃ b, firstMaxTag f (t :: ts) = some b ∧ b ∈ t :: ts ∧ f b = maxScore f (t :: ts) := by
  obtain ⟨x, hx, hmx⟩ := maxScore_attained f t ts
  cases hh : ((t :: ts).filter (fun y => f y == maxScore f (t :: ts))).head? with
  | none =>
    exfalso
    have hnil := List.head?_eq_none_iff.mp hh
    have hxf : x ∈ (t :: ts).filter (fun y => f y == maxScore f (t :: ts)) :=
      List.mem_filter.mpr ⟨hx, by simp [hmx]⟩
    rw [hnil] at hxf
    simp at hxf
  | some b =>
    refine ⟨b, hh, ?_, ?_⟩
    · have hbmem := List.mem_of_mem_head? (by rw [hh]; exact rfl)
      exact (List.mem_filter.mp hbmem).1
    · have hbmem := List.mem_of_mem_head? (by rw [hh]; exact rfl)
      have := (List.mem_filter.mp hbmem).2
      simpa using this

theorem maxScore_congr_zero (f : String → Nat) (hf : ∀ x, f x = 0) :
    ∀ l : List String, maxScore f l = 0 := by
  intro l
  induction l with
  | nil => rfl
  | cons t ts ih =>
    rw [maxScore, hf, ih]
    exact Nat.max_self 0

theorem foldl_append_rows (g : String → List TopFeedRow) : ∀ (modes : List String)
    (acc : List TopFeedRow),
    modes.foldl (fun acc feed => acc ++ g feed) acc = acc ++ modes.flatMap g := by
  intro modes
  induction modes with
  | nil => intro acc; simp
  | cons m ms ih =>
    intro acc
    rw [List.foldl_cons, ih]
    simp

theorem mem_top_feed_rows_date (today : DateYMD) (feed : String) (ids : List String) :
    ∀ row ∈ top_feed_rows_for_mode today feed ids,
      row.captured_on_date = formatYmd today := by
  intro row hrow
  cases ids with
  | nil =>
    simp only [top_feed_rows_for_mode, List.mem_singleton] at hrow
    rw [hrow]
  | cons v vs =>
    simp only [top_feed_rows_for_mode, List.mem_map] at hrow
    obtain ⟨a, _, ha⟩ := hrow
    rw [← ha]

theorem top_feeds_tables_date (today : DateYMD) (modes : List String)
    (tf : String → List String) :
    ∀ row ∈ top_feeds_tables today modes tf, row.captured_on_date = formatYmd today := by
  intro row hrow
  rw [top_feeds_tables, foldl_append_rows] at hrow
  simp only [List.nil_append, List.mem_flatMap] at hrow
  obtain ⟨feed, _, hfm⟩ := hrow
  exact mem_top_feed_rows_date today feed (tf feed) row hfm

theorem score_tags_firstMax (description t : String) (ts : List String) :
    score_tags description (t :: ts) =
      firstMaxTag (tagScore (tokenize description)) (t :: ts) :=
  most_common_firstMax (tagScore (tokenize description)) t ts

theorem score_tags_empty_desc (t : String) (ts : List String) :
    score_tags "" (t :: ts) = some t := by
  rw [score_tags_firstMax]
  have hf : ∀ x, tagScore (tokenize "") x = 0 := fun x => rfl
  rw [firstMaxTag, maxScore_congr_zero _ hf]
  have hall : ∀ x ∈ t :: ts, (tagScore (tokenize "") x == 0) = (fun _ : String => true) x := by
    intro x _
    simp [hf x]
  rw [List.filter_congr hall, List.filter_true]
  rfl

/-! ## The claims -/

/-- C1 (corrected). The claim "an empty or absent multi-valued attribute
produces zero rows and never a null-valued row; with writers of 3 and 0
article ids the user-articles table has exactly 3 rows" fails for the three
unguarded user relation tables: an empty list explodes to one null-valued row,
so the scenario yields 4 rows. This theorem states the amended behaviour:
(1) the user-articles table is the concatenation of per-user contributions;
(2) an empty article-id list contributes exactly one `(id, null)` row;
(3) a failed article-id fetch contributes zero rows;
(4) the guarded `top_writer_in` attribute contributes zero rows when `None` or
empty; (5)-(6) the two-writer scenario yields the 4 rows above while the
second writer still contributes its user-info row. -/
theorem claim_C1 :
    (∀ users : List MUser,
       (extract_users_tables users).users_articles = users.flatMap articleRowsOf) ∧
    (∀ u : MUser, u.article_ids = .ok [] → articleRowsOf u = [(u._id, none)]) ∧
    (∀ u : MUser, u.article_ids = .error () → articleRowsOf u = []) ∧
    (∀ (u : MUser) (i : UserInfo), u.info = .ok i →
       i.top_writer_in = none ∨ i.top_writer_in = some [] → topWriterRowsOf u = []) ∧
    (extract_users_tables [writer1, writer2]).users_articles =
      [("u1", some "a1"), ("u1", some "a2"), ("u1", some "a3"), ("u2", none)] ∧
    (extract_users_tables [writer1, writer2]).users_info = [⟨"u1", "Alice"⟩, ⟨"u2", "Bob"⟩] := by
  refine ⟨?_, ?_, ?_, ?_, by decide, by decide⟩
  · intro users
    rw [extract_users_tables_eq]
  · intro u h
    simp [articleRowsOf, h, explodeRows]
  · intro u h
    simp [articleRowsOf, h]
  · intro u i hi htw
    rcases htw with h | h <;> simp [topWriterRowsOf, hi, h, optTruthyRows]

/-- Witness for C1: the hypotheses are discharged on the concrete writers. -/
theorem claim_C1_witness :
    articleRowsOf writer2 = [("u2", none)] ∧
    articleRowsOf writerArticlesFail = [] ∧
    topWriterRowsOf writer2 = [] :=
  ⟨claim_C1.2.1 writer2 rfl,
   claim_C1.2.2.1 writerArticlesFail rfl,
   claim_C1.2.2.2.1 writer2 ⟨"u2", "Bob", none⟩ rfl (Or.inl rfl)⟩

/-- C1 counterexample: with 2 writers, one with 3 article ids and one with 0,
the user-articles table has 4 rows — not 3 — and contains a row pairing the
second writer's id with a null child value. -/
theorem claim_C1_cex :
    (extract_users_tables [writer1, writer2]).users_articles.length = 4 ∧
    ¬ (extract_users_tables [writer1, writer2]).users_articles.length = 3 ∧
    ("u2", (none : Option String)) ∈ (extract_users_tables [writer1, writer2]).users_articles :=
  ⟨by decide, by decide, by decide⟩

/-- C2 (corrected). The claim's scoring direction is reversed: the source
counts the description tokens that are substrings **of** the lower-cased tag
(`word in tag`), not the tokens that contain the tag. Amended statement:
the scorer always returns a tag of the input sequence whose `tagScore`
(token-contained-in-tag count) is maximal, and the "data science and machine
learning" example still returns "data" with score 1 against 0 for the others. -/
theorem claim_C2 :
    (∀ (desc t : String) (ts : List String), ∃ b,
       score_tags desc (t :: ts) = some b ∧ b ∈ t :: ts ∧
       ∀ x ∈ t :: ts, tagScore (tokenize desc) x ≤ tagScore (tokenize desc) b) ∧
    score_tags "data science and machine learning" ["ai", "data", "sports"] = some "data" ∧
    tagScore (tokenize "data science and machine learning") "data" = 1 ∧
    tagScore (tokenize "data science and machine learning") "ai" = 0 ∧
    tagScore (tokenize "data science and machine learning") "sports" = 0 := by
  refine ⟨?_, by decide, by decide, by decide, by decide⟩
  intro desc t ts
  obtain ⟨b, hb, hmem, hmax⟩ := firstMaxTag_spec (tagScore (tokenize desc)) t ts
  refine ⟨b, ?_, hmem, ?_⟩
  · rw [score_tags_firstMax, hb]
  · intro x hx
    rw [hmax]
    exact maxScore_le _ _ x hx

/-- Witness for C2 at the claim's own example input. -/
theorem claim_C2_witness :
    ∃ b, score_tags "data science and machine learning" ("ai" :: ["data", "sports"]) = some b ∧
      b ∈ "ai" :: ["data", "sports"] ∧
      ∀ x ∈ "ai" :: ["data", "sports"],
        tagScore (tokenize "data science and machine learning") x ≤
          tagScore (tokenize "data science and machine learning") b :=
  claim_C2.1 "data science and machine learning" "ai" ["data", "sports"]

/-- C2 counterexample: for description "ai" and tags ["aid", "a"] the scorer
returns "aid", although under the claim's counting rule (tokens containing the
tag) "a" scores 1 and "aid" scores 0, so the returned tag does not have the
highest claimed count. -/
theorem claim_C2_cex :
    score_tags "ai" ["aid", "a"] = some "aid" ∧
    spec_score (tokenize "ai") "aid" = 0 ∧
    spec_score (tokenize "ai") "a" = 1 :=
  ⟨by decide, by decide, by decide⟩

/-- C3 (confirmed). For every description and non-empty tag sequence the
scorer returns the first tag of the input sequence among those sharing the
maximum score (the score being the one the source computes); in particular
"hello world" with ["xyz", "abc"] gives "xyz", and an empty description always
gives the first tag. -/
theorem claim_C3 :
    (∀ (desc t : String) (ts : List String),
       score_tags desc (t :: ts) = firstMaxTag (tagScore (tokenize desc)) (t :: ts)) ∧
    score_tags "hello world" ["xyz", "abc"] = some "xyz" ∧
    (∀ (t : String) (ts : List String), score_tags "" (t :: ts) = some t) :=
  ⟨score_tags_firstMax, by decide, score_tags_empty_desc⟩

/-- C4 (corrected). The scorer does fail on an empty tag sequence (the
`most_common(1)[0]` lookup, modelled by `none`), but the failure is **not**
treated as a per-publication failure by any boundary: `fetch_publications_info`
wraps no `try/except` around the publication loop, so the error propagates out
of the whole call and aborts the entire publications extraction. -/
theorem claim_C4 :
    (∀ description : String, score_tags description [] = none) ∧
    (∀ pubs : List MPublication, (∃ p ∈ pubs, p.info.tags = some []) →
       fetch_publications_info pubs = .error ()) := by
  refine ⟨score_tags_nil, ?_⟩
  intro pubs ⟨p, hp, htags⟩
  exact fetch_publications_info_error pubs
    ⟨p, hp, publication_row_tables_empty_tags p htags⟩

/-- Witness for C4 on a concrete publication with an empty tag list. -/
theorem claim_C4_witness :
    score_tags "d" [] = none ∧
    fetch_publications_info [pubEmptyTags] = .error () :=
  ⟨claim_C4.1 "d",
   claim_C4.2 [pubEmptyTags] ⟨pubEmptyTags, List.mem_cons_self _ _, rfl⟩⟩

/-- C4 counterexample: a publication with an empty tag list aborts the whole
publications extraction — the healthy publication processed after it yields no
rows at all, although alone it produces its full tables; so the failure is not
contained to the offending publication. -/
theorem claim_C4_cex :
    fetch_publications_info [pubEmptyTags, pubGood] = .error () ∧
    fetch_publications_info [pubGood] =
      .ok ⟨[⟨"p2", "data stuff", "data"⟩], [("p2", some "data")], [],
           [("p2", some "pa2")]⟩ :=
  ⟨rfl, rfl⟩

/-- C5 (corrected). Only the per-user sub-operations inside `extract_users`
are isolated: the user tables of a concatenated run split componentwise, so
entities processed after a failing user still appear fully. Per-article and
per-publication units have **no** boundary: one failing article or publication
makes the whole respective extraction return an error, and nothing fetched
afterwards appears in any output table. -/
theorem claim_C5 :
    (∀ xs ys : List MUser, extract_users_tables (xs ++ ys) =
       appendUserTables (extract_users_tables xs) (extract_users_tables ys)) ∧
    (∀ (fetch : Option String → Except Unit MArticle) (rows : List (Option String)),
       (∃ r ∈ rows, article_row_tables fetch r = .error ()) →
       fetch_user_articles_info fetch rows = .error ()) ∧
    (∀ pubs : List MPublication, (∃ p ∈ pubs, publication_row_tables p = .error ()) →
       fetch_publications_info pubs = .error ()) :=
  ⟨extract_users_tables_append, fetch_user_articles_info_error,
   fetch_publications_info_error⟩

/-- Witness for C5: a failing first article id aborts the article extraction,
a failing publication aborts the publication extraction, and the user tables
of a two-writer run split into the two single-writer runs. -/
theorem claim_C5_witness :
    extract_users_tables ([writer1] ++ [writer2]) =
      appendUserTables (extract_users_tables [writer1]) (extract_users_tables [writer2]) ∧
    fetch_user_articles_info fetchMock [some "a1"] = .error () ∧
    fetch_publications_info [pubEmptyTags] = .error () :=
  ⟨claim_C5.1 [writer1] [writer2],
   claim_C5.2.1 fetchMock [some "a1"] ⟨some "a1", List.mem_cons_self _ _, rfl⟩,
   claim_C5.2.2 [pubEmptyTags] ⟨pubEmptyTags, List.mem_cons_self _ _, rfl⟩⟩

/-- C5 counterexample: the article whose fetch fails is first in the row list;
the healthy article "a2" fetched afterwards appears in no output table because
the whole call errors, although alone it produces its full tables. -/
theorem claim_C5_cex :
    fetch_user_articles_info fetchMock [some "a1", some "a2"] = .error () ∧
    fetch_user_articles_info fetchMock [some "a2"] =
      .ok ⟨[⟨"a2", "T2", true, "c", "m"⟩], [("a2", some "tg")], [],
           [("a2", some "f1")], [], [⟨"cm1", some "a2"⟩], [], []⟩ :=
  ⟨rfl, rfl⟩

/-- C6 (confirmed). The four per-user sub-operations are isolated in four
independent `try/except` blocks: every table (and the log) is a concatenation
of per-user contributions, each depending only on the attribute its own block
fetches; a follower-fetch failure is logged with the user's id, does not
discard the already-extracted info row of the same user, and does not stop
later users (they contribute through the same concatenation). -/
theorem claim_C6 :
    (∀ users : List MUser, extract_users_tables users =
       ⟨users.flatMap infoRowsOf, users.flatMap topWriterRowsOf,
        users.flatMap followerRowsOf, users.flatMap followingRowsOf,
        users.flatMap articleRowsOf, users.flatMap logRowsOf⟩) ∧
    (∀ (xs ys : List MUser) (u : MUser) (i : UserInfo),
       u.info = .ok i → u.followers_ids = .error () →
       ("followers", u._id) ∈ (extract_users_tables (xs ++ u :: ys)).logs ∧
       UserRow.mk i.id i.name ∈ (extract_users_tables (xs ++ u :: ys)).users_info) := by
  refine ⟨extract_users_tables_eq, ?_⟩
  intro xs ys u i hi hf
  have hu : u ∈ xs ++ u :: ys := List.mem_append_right _ (List.mem_cons_self _ _)
  rw [extract_users_tables_eq]
  constructor
  · exact List.mem_flatMap.mpr ⟨u, hu, by simp [logRowsOf, hi, hf]⟩
  · exact List.mem_flatMap.mpr ⟨u, hu, by simp [infoRowsOf, hi]⟩

/-- Witness for C6: the middle writer's follower fetch fails; the failure is
logged with its id and its info row survives. -/
theorem claim_C6_witness :
    ("followers", "u3") ∈
      (extract_users_tables ([writer1] ++ writerFollowersFail :: [writer2])).logs ∧
    UserRow.mk "u3" "Carol" ∈
      (extract_users_tables ([writer1] ++ writerFollowersFail :: [writer2])).users_info :=
  claim_C6.2 [writer1] [writer2] writerFollowersFail ⟨"u3", "Carol", none⟩ rfl rfl

/-- C7 (confirmed). With loading enabled and healthy credentials, all five
user destination tables are attempted independently: the attempt list always
has five entries, the attempted table names are exactly the configured ones,
and each attempt's outcome depends only on its own destination — so a load
failure for one destination never prevents the others from being attempted. -/
theorem claim_C7 :
    ∀ (cfg : List (String × String)) (credsOk : Option String → Bool)
      (loader : String → Bool),
      credsOk (cfgGet cfg "credentials_path") = true →
      ∃ atts, load_users_to_bq cfg credsOk loader = .ok atts ∧
        atts.length = 5 ∧
        atts.map LoadAttempt.table =
          [cfgGet cfg "user_info_table", cfgGet cfg "users_top_writer_in_table",
           cfgGet cfg "user_followers_table", cfgGet cfg "user_followings_table",
           cfgGet cfg "users_articles_table"] ∧
        ∀ a ∈ atts, a.ok = loader a.dest := by
  intro cfg credsOk loader h
  refine ⟨[mkAttempt (cfgGet cfg "project") (cfgGet cfg "dataset_id")
             (cfgGet cfg "user_info_table") loader,
           mkAttempt (cfgGet cfg "project") (cfgGet cfg "dataset_id")
             (cfgGet cfg "users_top_writer_in_table") loader,
           mkAttempt (cfgGet cfg "project") (cfgGet cfg "dataset_id")
             (cfgGet cfg "user_followers_table") loader,
           mkAttempt (cfgGet cfg "project") (cfgGet cfg "dataset_id")
             (cfgGet cfg "user_followings_table") loader,
           mkAttempt (cfgGet cfg "project") (cfgGet cfg "dataset_id")
             (cfgGet cfg "users_articles_table") loader],
          by simp only [load_users_to_bq]; rw [if_pos h], rfl, by simp [mkAttempt], ?_⟩
  intro a ha
  simp only [List.mem_cons, List.not_mem_nil, or_false] at ha
  rcases ha with rfl | rfl | rfl | rfl | rfl <;> rfl

/-- Witness for C7: with a loader that fails exactly for the followers table,
all five destinations are still attempted. -/
theorem claim_C7_witness :
    ∃ atts, load_users_to_bq cfgFull credsOkMock loaderFailT3 = .ok atts ∧
      atts.length = 5 ∧
      atts.map LoadAttempt.table =
        [cfgGet cfgFull "user_info_table", cfgGet cfgFull "users_top_writer_in_table",
         cfgGet cfgFull "user_followers_table", cfgGet cfgFull "user_followings_table",
         cfgGet cfgFull "users_articles_table"] ∧
      ∀ a ∈ atts, a.ok = loaderFailT3 a.dest :=
  claim_C7 cfgFull credsOkMock loaderFailT3 (by decide)

/-- C8 (corrected). The accumulator tables are computed independently of the
flag, the config, the credential check and the loader, and are returned with
no load attempts when the flag is false; with the flag true they are returned
with the attempt list **unless** the uncaught credentials failure of the load
phase aborts the call (the carve-out the counterexample forces). The top-feeds
stage behaves the same way. -/
theorem claim_C8 :
    (∀ (users : List MUser) (cfg : List (String × String))
       (credsOk : Option String → Bool) (loader : String → Bool),
       extract_users users cfg credsOk loader false = .ok (extract_users_tables users, [])) ∧
    (∀ (users : List MUser) (cfg : List (String × String))
       (credsOk : Option String → Bool) (loader : String → Bool)
       (tables : UserTables) (atts : List LoadAttempt),
       extract_users users cfg credsOk loader true = .ok (tables, atts) →
       tables = extract_users_tables users) ∧
    (∀ (today : DateYMD) (modes : List String) (tf : String → List String)
       (cfg : List (String × String)) (credsOk : Option String → Bool)
       (loader : String → Bool),
       fetch_top_feeds today modes tf cfg credsOk loader false =
         .ok (top_feeds_tables today modes tf, [])) := by
  refine ⟨?_, ?_, ?_⟩
  · intro users cfg credsOk loader
    rfl
  · intro users cfg credsOk loader tables atts h
    simp only [extract_users, if_true] at h
    cases hl : load_users_to_bq cfg credsOk loader with
    | error e =>
      rw [hl] at h
      simp at h
    | ok a =>
      rw [hl] at h
      simp only [Except.ok.injEq, Prod.mk.injEq] at h
      exact h.1.symm
  · intro today modes tf cfg credsOk loader
    rfl

/-- Witness for C8: a concrete run with the flag off returns the tables with
no attempts, and a concrete run with the flag on returns the same tables. -/
theorem claim_C8_witness :
    extract_users [writer1] cfgFull credsOkMock loaderFailT3 false =
      .ok (extract_users_tables [writer1], []) ∧
    extract_users_tables [writer1] = extract_users_tables [writer1] :=
  ⟨claim_C8.1 [writer1] cfgFull credsOkMock loaderFailT3,
   claim_C8.2.1 [writer1] cfgFull credsOkMock loaderFailT3 (extract_users_tables [writer1])
     [⟨some "t1", "p.d.t1", true⟩, ⟨some "t2", "p.d.t2", true⟩,
      ⟨some "t3", "p.d.t3", false⟩, ⟨some "t4", "p.d.t4", true⟩,
      ⟨some "t5", "p.d.t5", true⟩] (by decide)⟩

/-- C8 counterexample: with loading enabled and failing credentials the run
raises and returns no tables at all, while the identical run with the flag off
returns them — so "every run returns all accumulator tables regardless of the
flag" is false as stated. -/
theorem claim_C8_cex :
    extract_users [writer1] cfgFull (fun _ => false) loaderFailT3 true = .error () ∧
    extract_users [writer1] cfgFull (fun _ => false) loaderFailT3 false =
      .ok (extract_users_tables [writer1], []) :=
  ⟨rfl, rfl⟩

/-- C9 (corrected). An invalid (or missing) credentials path is indeed fatal:
the credentials call sits outside every `try/except`, so the load phase
propagates the error. But a missing destination-table key is **not** fatal:
`dict.get` yields `None`, the f-string renders it into the destination as the
placeholder "None", the load is attempted anyway, and any failure is absorbed
by that table's own boundary. -/
theorem claim_C9 :
    (∀ (cfg : List (String × String)) (credsOk : Option String → Bool)
       (loader : String → Bool),
       credsOk (cfgGet cfg "credentials_path") = false →
       load_users_to_bq cfg credsOk loader = .error ()) ∧
    (∀ (cfg : List (String × String)) (credsOk : Option String → Bool)
       (loader : String → Bool),
       cfgGet cfg "user_info_table" = none →
       credsOk (cfgGet cfg "credentials_path") = true →
       ∃ a rest, load_users_to_bq cfg credsOk loader = .ok (a :: rest) ∧
         a.table = none ∧
         a.dest = pyStr (cfgGet cfg "project") ++ "." ++
           pyStr (cfgGet cfg "dataset_id") ++ "." ++ "None") := by
  constructor
  · intro cfg credsOk loader h
    simp only [load_users_to_bq]
    rw [if_neg (by simp [h])]
  · intro cfg credsOk loader h1 h2
    refine ⟨mkAttempt (cfgGet cfg "project") (cfgGet cfg "dataset_id")
              (cfgGet cfg "user_info_table") loader,
            [mkAttempt (cfgGet cfg "project") (cfgGet cfg "dataset_id")
               (cfgGet cfg "users_top_writer_in_table") loader,
             mkAttempt (cfgGet cfg "project") (cfgGet cfg "dataset_id")
               (cfgGet cfg "user_followers_table") loader,
             mkAttempt (cfgGet cfg "project") (cfgGet cfg "dataset_id")
               (cfgGet cfg "user_followings_table") loader,
             mkAttempt (cfgGet cfg "project") (cfgGet cfg "dataset_id")
               (cfgGet cfg "users_articles_table") loader],
            ?_, ?_, ?_⟩
    · simp only [load_users_to_bq]
      rw [if_pos h2]
    · simp [mkAttempt, h1]
    · simp [mkAttempt, h1, pyStr]

/-- Witness for C9: failing credentials abort a fully-configured load, and a
config missing `user_info_table` yields an attempted load at "p.d.None". -/
theorem claim_C9_witness :
    load_users_to_bq cfgFull (fun _ => false) loaderFailT3 = .error () ∧
    (∃ a rest, load_users_to_bq cfgMissingTable credsOkMock loaderFailT3 = .ok (a :: rest) ∧
      a.table = none ∧
      a.dest = pyStr (cfgGet cfgMissingTable "project") ++ "." ++
        pyStr (cfgGet cfgMissingTable "dataset_id") ++ "." ++ "None") :=
  ⟨claim_C9.1 cfgFull (fun _ => false) loaderFailT3 rfl,
   claim_C9.2 cfgMissingTable credsOkMock loaderFailT3 rfl (by decide)⟩

/-- C9 counterexample: with `user_info_table` missing from the config the run
does not fail fatally — all five loads are attempted, the first one against
the placeholder destination "p.d.None", and every failure is absorbed. -/
theorem claim_C9_cex :
    load_users_to_bq cfgMissingTable credsOkMock (fun _ => false) =
      .ok [⟨none, "p.d.None", false⟩, ⟨some "t2", "p.d.t2", false⟩,
           ⟨some "t3", "p.d.t3", false⟩, ⟨some "t4", "p.d.t4", false⟩,
           ⟨some "t5", "p.d.t5", false⟩] := by decide

/-- C10 (confirmed). Every row emitted by one top-feed extraction carries the
single date captured before the mode loop, formatted `YYYY-MM-DD`: all rows
across all modes share the same `captured_on_date` value, and the format is a
ten-character string with dashes at positions 4 and 7. -/
theorem claim_C10 :
    (∀ (today : DateYMD) (modes : List String) (tf : String → List String),
       ∀ row ∈ top_feeds_tables today modes tf,
         row.captured_on_date = formatYmd today) ∧
    (∀ (today : DateYMD) (modes : List String) (tf : String → List String),
       ∀ r1 ∈ top_feeds_tables today modes tf, ∀ r2 ∈ top_feeds_tables today modes tf,
         r1.captured_on_date = r2.captured_on_date) ∧
    (∀ today : DateYMD, (formatYmd today).length = 10 ∧
       (formatYmd today).data[4]? = some '-' ∧ (formatYmd today).data[7]? = some '-') := by
  refine ⟨top_feeds_tables_date, ?_, ?_⟩
  · intro today modes tf r1 h1 r2 h2
    rw [top_feeds_tables_date today modes tf r1 h1,
        top_feeds_tables_date today modes tf r2 h2]
  · intro today
    exact ⟨rfl, rfl, rfl⟩

/-- Witness for C10: a two-mode run on 2024-01-05; the first emitted row
carries the captured date. -/
theorem claim_C10_witness :
    (TopFeedRow.mk "hot" (formatYmd ⟨2024, 1, 5⟩) (some "a1")).captured_on_date =
      formatYmd ⟨2024, 1, 5⟩ :=
  claim_C10.1 ⟨2024, 1, 5⟩ ["hot", "new"] feedsMock
    (TopFeedRow.mk "hot" (formatYmd ⟨2024, 1, 5⟩) (some "a1")) (by decide)
